import Mathlib

/-
Verification of the redmine→gitea migration script (main.py) against its
specification.  The script is shallowly embedded: Python strings are lists
of characters, dicts are association lists with Python's assignment and
lookup semantics, HTTP exchanges with the two trackers are supplied by a
`World` of response functions, and every externally visible action of the
program (label fetch, issue creation, identifier recording, comment
posting, label re-assertion, registry persistence, phase-2 comment edits)
is logged as an `Event` in an explicit trace.
-/

set_option maxRecDepth 10000

namespace R2G

/-- Character lists model Python `str` values throughout the embedding. -/
abbrev Str := List Char

/-- Python exceptions the script can raise (plus `fuel`, which models a loop
bound exhausted: the source's label loop has no bound at all, see `labelLoop`). -/
inductive Err where
  | keyError
  | valueError
  | typeError
  | attributeError
  | systemExit
  | fuel
deriving DecidableEq

/-- Python `dict` read `d[k]` (as an option; `keyed` turns `none` into `KeyError`). -/
def lookupA {α β : Type} [DecidableEq α] : List (α × β) → α → Option β
  | [], _ => none
  | (k, v) :: t, k' => if k' = k then some v else lookupA t k'

/-- `d[k]` with Python's `KeyError` on a missing key. -/
def keyed {β : Type} : Option β → Except Err β
  | some b => .ok b
  | none => .error .keyError

/-- Python `dict` assignment `d[k] = v`: overwrite the entry in place if the key
is present, append otherwise (insertion order preserved). -/
def setA {α β : Type} [DecidableEq α] : List (α × β) → α → β → List (α × β)
  | [], k, v => [(k, v)]
  | (k', v') :: t, k, v => if k' = k then (k, v) :: t else (k', v') :: setA t k v

/-- Insert into a list already sorted by the boolean order `le`. -/
def insertLe {α : Type} (le : α → α → Bool) (a : α) : List α → List α
  | [] => [a]
  | b :: t => if le a b then a :: b :: t else b :: insertLe le a t

/-- Insertion sort by `le`; models Python `list.sort` / `sort_keys=True`. -/
def sortLe {α : Type} (le : α → α → Bool) (l : List α) : List α :=
  l.foldr (insertLe le) []

/-- Adjacent-pairs sortedness test. -/
def pairwiseLe {α : Type} (le : α → α → Bool) : List α → Bool
  | [] => true
  | [_] => true
  | a :: b :: t => le a b && pairwiseLe le (b :: t)

def natLeB (a b : Nat) : Bool := decide (a ≤ b)

/-- Python `list.sort()` on integer label ids. -/
def sortNat (l : List Nat) : List Nat := sortLe natLeB l

/-- Numeric order on the registry's `(int key, value)` items: what
`sorted(dct.items())` uses when `json.dump(..., sort_keys=True)` serialises
the int-keyed mapping (keys are unique, so the comparison never reaches the
values). -/
def numKeyLe (p q : Nat × Nat) : Bool := natLeB p.1 q.1

/-- Decimal digit character. -/
def digitChar (n : Nat) : Char := Char.ofNat (48 + n)

def natDigitsAux : Nat → Nat → Str
  | 0, _ => []
  | f + 1, n => if n < 10 then [digitChar n] else natDigitsAux f (n / 10) ++ [digitChar (n % 10)]

/-- Decimal rendering of a natural number; models Python `str`/f-string
interpolation of the (non-negative) ids the script handles. -/
def natDigits (n : Nat) : Str := natDigitsAux (n + 1) n

/-- Numeric value of a digit string; models Python `int(s)` on digit strings
(`int(match[1:])` in `update_comments`). -/
def parseDigits (s : Str) : Nat := s.foldl (fun a c => a * 10 + (c.toNat - 48)) 0

/-- Order of the serialised registry entries by the numeric value of their
decimal string keys. -/
def persistKeyLe (a b : Str × Nat) : Bool := natLeB (parseDigits a.1) (parseDigits b.1)

/-- Python `str.isnumeric` on the ASCII property codes the journals contain. -/
def pyIsNumeric (s : Str) : Bool := !s.isEmpty && s.all Char.isDigit

/-- Python `int(x)` applied to an optional journal value: `int(None)` raises
`TypeError`, a non-digit string raises `ValueError`. -/
def pyIntOpt : Option Str → Except Err Nat
  | none => .error .typeError
  | some s => if s ≠ [] ∧ s.all Char.isDigit then .ok (parseDigits s) else .error .valueError

/-- Python substring test `pat in s`. -/
def occursB (pat : Str) : Str → Bool
  | [] => pat.isEmpty
  | c :: rest => pat.isPrefixOf (c :: rest) || occursB pat rest

/-- Scanner of Python `str.replace`: second argument `0` means "scanning",
`k + 1` means "`k + 1` characters of a matched pattern still to skip".
Structural recursion so the kernel can evaluate it. -/
def pyReplaceGo (pat rep : Str) : Str → Nat → Str
  | [], _ => []
  | _ :: rest, k + 1 => pyReplaceGo pat rep rest k
  | c :: rest, 0 =>
    if pat ≠ [] ∧ pat.isPrefixOf (c :: rest) then
      rep ++ pyReplaceGo pat rep rest (pat.length - 1)
    else
      c :: pyReplaceGo pat rep rest 0

/-- Python `s.replace(pat, rep)` for a non-empty pattern: left to right,
non-overlapping, and the replacement text is not rescanned. -/
def pyReplace (s pat rep : Str) : Str := pyReplaceGo pat rep s 0

/-- `re.findall('(#[0-9]+)', s)` as a character scanner: state `none` is
"outside a token", `some acc` is "after a `#`, digits `acc` collected". -/
def scanAux : Str → Option Str → List Str
  | [], none => []
  | [], some acc => if acc.isEmpty then [] else ['#' :: acc]
  | c :: rest, none => if c = '#' then scanAux rest (some []) else scanAux rest none
  | c :: rest, some acc =>
    if c.isDigit then scanAux rest (some (acc ++ [c]))
    else if acc.isEmpty then
      (if c = '#' then scanAux rest (some []) else scanAux rest none)
    else
      ('#' :: acc) :: (if c = '#' then scanAux rest (some []) else scanAux rest none)

/-- All `#<digits>` issue-reference tokens of a text, in order of occurrence
(`check_for_references`, line 225). -/
def scanRefs (s : Str) : List Str := scanAux s none

/-- The rewritten reference `f'#{gitea_id} (redmine id: {issue_id})'`
(`update_comments`, line 83). -/
def composite (giteaId issueId : Nat) : Str :=
  '#' :: natDigits giteaId ++ " (redmine id: ".data ++ natDigits issueId ++ ")".data

/-- Token loop of `update_comments` (lines 78-85): each match has its digits
parsed by `int(match[1:])` and resolved through the id map; a resolved token is
`str.replace`d everywhere by the composite form, an unresolved one is left
untouched (the error is only printed). -/
def rewriteMatches (reg : List (Nat × Nat)) : Str → List Str → Str
  | content, [] => content
  | content, m :: rest =>
    let issueId := parseDigits (m.drop 1)
    let content' :=
      match lookupA reg issueId with
      | some g => pyReplace content m (composite g issueId)
      | none => content
    rewriteMatches reg content' rest

/-- The relation journal properties (lines 35-45). -/
def relation_types : List Str :=
  ["blocks".data, "blocked".data, "precedes".data, "follows".data, "relates".data,
   "duplicates".data, "duplicated".data, "copied_to".data, "copied_from".data]

/-- Tracker-name → label-name table (lines 355-359). -/
def issue_type_map_names : List (Str × Str) :=
  [("Bug".data, "bug".data), ("Feature".data, "enhancement".data), ("Support".data, "support".data)]

/-- Status-code → status-name table (lines 408-418). -/
def map_status : List (Nat × Str) :=
  [(1, "New".data), (2, "In Progress".data), (3, "Resolved".data), (4, "Feedback".data),
   (5, "Closed".data), (6, "Rejected".data), (8, "Review requested".data),
   (9, "Review provided".data), (10, "Ready for deploy".data)]

/-- Tracker-code → tracker-name table (lines 420-424). -/
def issue_type_map_codes : List (Nat × Str) :=
  [(1, "Bug".data), (2, "Feature".data), (3, "Support".data)]

/-- `data['closed']` (line 349). -/
def closedFlag (status : Str) : Bool :=
  status = "Resolved".data || status = "Closed".data || status = "Rejected".data

/-- The intended label-id list of lines 355-366: the tracker's type label, the
`migrated` label, plus the `wontfix` label iff the status is `Rejected`,
sorted in place at the end; a name missing from either table is a `KeyError`. -/
def labelIds (table : List (Str × Nat)) (issue_type status : Str) : Except Err (List Nat) := do
  let key ← keyed (lookupA issue_type_map_names issue_type)
  let t ← keyed (lookupA table key)
  let m ← keyed (lookupA table ("migrated".data))
  let ls ←
    if status = "Rejected".data then do
      let wf ← keyed (lookupA table ("wontfix".data))
      pure [t, m, wf]
    else
      pure [t, m]
  pure (sortNat ls)

/-- An HTTP response, reduced to its status code. -/
structure Resp where
  code : Nat
deriving DecidableEq

/-- `requests`' `response.ok`: status code below 400. -/
def respOk (r : Resp) : Bool := r.code < 400

/-- Lines 369-388 of `create_issue`: `r1` is the response to the first creation
POST.  On a 422 the script deletes the assignee from the payload — a `KeyError`
when none was set — and posts exactly once more, receiving `r2`; whichever
response is current at line 385 aborts the run with `SystemExit` unless ok. -/
def createWithRetry (hasAssignee : Bool) (r1 r2 : Resp) : Except Err Resp :=
  if r1.code = 422 then
    if hasAssignee then
      if respOk r2 then .ok r2 else .error .systemExit
    else .error .keyError
  else if respOk r1 then .ok r1 else .error .systemExit

/-- One Redmine user directory entry (`get_users`, lines 99-103). -/
structure UserRec where
  username : Str
  name : Str
deriving DecidableEq

/-- The configuration and the directories fetched once per run: users,
projects, `DEFAULT_USERNAME`, `ORGANIZATION`; `formatTime` abstracts the
`datetime`/`pytz` timestamp formatting (an external library computation). -/
structure Config where
  users : List (Nat × UserRec)
  projects : List (Nat × Str)
  defaultUsername : Option Str
  organization : Str
  formatTime : Str → Str

/-- `get_username` (lines 280-284). -/
def get_username (cfg : Config) (id : Nat) : Str :=
  match lookupA cfg.users id with
  | some u => u.username
  | none =>
    match cfg.defaultUsername with
    | some d => d
    | none => []

/-- One `FieldChange` of a journal entry (`detail`, lines 434-438). -/
structure Detail where
  property : Str
  name : Str
  old_value : Option Str
  new_value : Option Str
deriving DecidableEq

/-- One `ChangeEvent` (`comment`, lines 426-431). -/
structure Journal where
  userId : Nat
  userName : Str
  notes : Option Str
  created_on : Str
  details : List Detail
deriving DecidableEq

/-- f-string rendering of a possibly-`None` value. -/
def fmtVal : Option Str → Str
  | none => "None".data
  | some s => s

/-- The body of the `for detail in details` loop (lines 434-478): value
resolution through the lookup tables, then at most one rendered clause;
a `None` result means the change contributes no clause. -/
def processDetail (cfg : Config) (d : Detail) : Except Err (Option Str) := do
  let property_name := d.name
  -- lines 443-449: unit suffix, or relation cross-reference markers
  let unit : Str := if property_name = "done_ratio".data then "%".data else []
  let isRel : Bool := !(decide (property_name = "done_ratio".data)) && decide (property_name ∈ relation_types)
  let pre_old : Str := if isRel && d.old_value.isSome then "#".data else []
  let pre_new : Str := if isRel && d.new_value.isSome then "#".data else []
  -- lines 451-452: an empty-string old value becomes the literal word None
  let ov0 : Option Str := if d.old_value = some [] then some ("None".data) else d.old_value
  let nv0 := d.new_value
  -- lines 454-456: status codes
  let p1 ←
    if property_name = "status_id".data then do
      let oi ← pyIntOpt ov0
      let o ← keyed (lookupA map_status oi)
      let ni ← pyIntOpt nv0
      let n ← keyed (lookupA map_status ni)
      pure (some o, some n)
    else pure (ov0, nv0)
  -- lines 458-460: tracker codes
  let p2 ←
    if property_name = "tracker_id".data then do
      let oi ← pyIntOpt p1.1
      let o ← keyed (lookupA issue_type_map_codes oi)
      let ni ← pyIntOpt p1.2
      let n ← keyed (lookupA issue_type_map_codes ni)
      pure (some o, some n)
    else pure p1
  -- lines 462-464: project ids
  let p3 ←
    if property_name = "project_id".data then do
      let oi ← pyIntOpt p2.1
      let o ← keyed (lookupA cfg.projects oi)
      let ni ← pyIntOpt p2.2
      let n ← keyed (lookupA cfg.projects ni)
      pure (some o, some n)
    else pure p2
  -- lines 466-470: assignee ids, resolved only when present in the user table
  let p4 ←
    if property_name = "assigned_to_id".data then do
      let o ←
        match p3.1 with
        | none => pure (none : Option Str)
        | some s => do
          let i ← pyIntOpt (some s)
          pure (match lookupA cfg.users i with
                | some u => some u.name
                | none => some s)
      let n ←
        match p3.2 with
        | none => pure (none : Option Str)
        | some s => do
          let i ← pyIntOpt (some s)
          pure (match lookupA cfg.users i with
                | some u => some u.name
                | none => some s)
      pure (o, n)
    else pure p3
  -- lines 472-478: numeric-coded (unrecognized) properties emit nothing
  if !(pyIsNumeric property_name) then
    if property_name = "subject".data ∨ property_name = "description".data then do
      let o ← match p4.1 with | some s => pure s | none => Except.error Err.attributeError
      let o := pyReplace o ("\n".data) ("\n> ".data)
      let n ← match p4.2 with | some s => pure s | none => Except.error Err.attributeError
      let n := pyReplace n ("\n".data) ("\n> ".data)
      pure (some ("`".data ++ property_name ++ "` changed from:\n> ".data ++ pre_old ++ o ++ unit
        ++ "\n\nto:\n\n> ".data ++ pre_new ++ n ++ unit ++ "\n".data))
    else
      pure (some ("*`".data ++ property_name ++ "` changed from ".data ++ pre_old ++ fmtVal p4.1
        ++ unit ++ " to ".data ++ pre_new ++ fmtVal p4.2 ++ unit ++ "*".data))
  else
    pure none

/-- `detail_text` accumulation over the details of one journal entry. -/
def processDetails (cfg : Config) : List Detail → Except Err (List Str)
  | [] => .ok []
  | d :: rest => do
    let c ← processDetail cfg d
    let r ← processDetails cfg rest
    match c with
    | some s => pure (s :: r)
    | none => pure r

/-- Python `'\n'.join`. -/
def joinNL : List Str → Str
  | [] => []
  | [s] => s
  | s :: rest => s ++ '\n' :: joinNL rest

/-- The trailing timestamp line `f'\n\n*Date: {created_on}*'` (line 484). -/
def tsSuffix (created : Str) : Str := "\n\n*Date: ".data ++ created ++ "*".data

/-- Is the journal's acting user rendered as the configured default username? -/
def userIsDefault (cfg : Config) (userId : Nat) : Bool :=
  match cfg.defaultUsername with
  | some d => get_username cfg userId = d
  | none => false

/-- Lines 486-487: attribution of the true author when the posting user fell
back to (or coincides with) `DEFAULT_USERNAME`. -/
def appendUserLine (cfg : Config) (j : Journal) (body : Str) : Str :=
  if userIsDefault cfg j.userId then
    body ++ "\n*User: ".data ++ j.userName ++ "*".data
  else body

/-- The comment body composed for one journal entry (lines 426-487): note,
separator rule iff both note and clauses are non-empty, clauses, timestamp
line, optional author attribution. -/
def renderJournal (cfg : Config) (j : Journal) : Except Err Str := do
  let created := cfg.formatTime j.created_on
  let detail_text ← processDetails cfg j.details
  let body : Str :=
    match j.notes with
    | some ns => if ns.isEmpty then [] else ns ++ (if detail_text.isEmpty then [] else "\n***\n".data)
    | none => []
  let body := body ++ joinNL detail_text ++ tsSuffix created
  pure (appendUserLine cfg j body)

/-- One source issue, as read from the Redmine JSON (`create_issue`,
lines 293-321). -/
structure Issue where
  id : Nat
  subject : Str
  projectId : Nat
  description : Str
  statusName : Str
  trackerName : Str
  priorityName : Str
  is_private : Bool
  done_ratio : Nat
  created_on : Str
  categoryName : Option Str
  assignedTo : Option (Str × Nat)
  authorName : Str
  authorId : Nat
  customFields : List (Str × Option Str)
deriving DecidableEq

/-- One entry of `comments_to_update` (lines 227-233); `comment_id = none`
models the sentinel string `'body'` (the issue body itself). -/
structure Deferred where
  gitea_repo : Str
  issue_id : Nat
  comment_id : Option Nat
  content : Str
  matchTokens : List Str
deriving DecidableEq

/-- The externally visible actions of the run, in order. -/
inductive Event where
  | fetchLabels (repo : Str)
  | createCall (repo : Str) (issueId : Nat) (withAssignee : Bool) (closed : Bool) (labels : List Nat)
  | record (src tgt : Nat)
  | postComment (repo : Str) (giteaIssue : Nat) (body : Str)
  | addLabels (repo : Str) (giteaIssue : Nat) (labels : List Nat)
  | persist (entries : List (Str × Nat))
  | editBody (repo : Str) (issueId : Nat) (commentId : Option Nat) (body : Str)
deriving DecidableEq

/-- The module-level mutable state of main.py: the per-repo label cache
(`labels`), the identifier registry (`map_redmine_to_gitea`), the deferred
references (`comments_to_update`), plus the action trace. -/
structure St where
  labelsCache : List (Str × List (Str × Nat))
  registry : List (Nat × Nat)
  deferred : List Deferred
  trace : List Event
deriving DecidableEq

/-- The globals all start empty. -/
def St.init : St := ⟨[], [], [], []⟩

/-- The two trackers' responses, as functions of the request being made. -/
structure World where
  labelFetch : Str → List (Str × Nat)
  createCode : Nat → Bool → Nat
  retryCode : Nat → Nat
  createdNumber : Nat → Nat
  respLabels : Nat → Option (List Nat)
  addLabelsResult : Nat → Nat → List Nat
  commentOk : Nat → Nat → Bool
  commentId : Nat → Nat → Nat
  journals : Nat → List Journal
  labelFuel : Nat

def emit (st : St) (e : Event) : St := {st with trace := st.trace ++ [e]}

def pyLower (s : Str) : Str := s.map Char.toLower

def pyStrip (s : Str) : Str :=
  ((s.dropWhile Char.isWhitespace).reverse.dropWhile Char.isWhitespace).reverse

/-- `get_gitea_repo` (lines 48-56). -/
def get_gitea_repo (cfg : Config) (redmine_project_name : Str) : Str :=
  let p := pyLower (pyStrip redmine_project_name)
  let p := if p = "nuno".data then "nuno-api".data
           else if p = "cotton".data then "tv".data
           else p
  cfg.organization ++ '/' :: p

/-- `get_labels` (lines 161-180): answer from the module-level cache, else one
GET against the target and a cache fill. -/
def get_labels (w : World) (st : St) (gitea_repo : Str) : St × List (Str × Nat) :=
  match lookupA st.labelsCache gitea_repo with
  | some t => (st, t)
  | none =>
    let t := w.labelFetch gitea_repo
    let st := emit st (.fetchLabels gitea_repo)
    ({st with labelsCache := st.labelsCache ++ [(gitea_repo, t)]}, t)

/-- `check_for_references` (lines 224-235): a text with at least one reference
token becomes a deferred-reference record; nothing is rewritten here. -/
def check_for_references (st : St) (content : Str) (gitea_repo : Str) (issue_id : Nat)
    (comment_id : Option Nat) : St :=
  let ms := scanRefs content
  if ms.length > 0 then
    {st with deferred := st.deferred ++ [⟨gitea_repo, issue_id, comment_id, content, ms⟩]}
  else st

/-- `add_comment` (lines 254-277): POST the comment, `SystemExit` unless ok,
then scan the posted body for references under the response's comment id.
`idx` is the position of the comment under its issue (distinguishing the
successive HTTP exchanges in the `World`). -/
def add_comment (w : World) (st : St) (gitea_repo : Str) (issue_id : Nat) (body : Str)
    (idx : Nat) : St × Option Err :=
  let st := emit st (.postComment gitea_repo issue_id body)
  if w.commentOk issue_id idx then
    (check_for_references st body gitea_repo issue_id (some (w.commentId issue_id idx)), none)
  else (st, some .systemExit)

/-- The label-reconciliation loop (lines 402-406).  The source loops with NO
bound (`while gitea_labels != data['labels']`); the `fuel` argument makes the
embedding total, and returning `Err.fuel` means the source would still be in
the loop after `fuel` re-assertions. -/
def labelLoop (w : World) (gitea_repo : Str) (giteaIssue : Nat) (intended : List Nat) :
    Nat → Nat → List Nat → St → St × Option Err
  | fuel, attempt, current, st =>
    if current = intended then (st, none)
    else
      match fuel with
      | 0 => (st, some Err.fuel)
      | f + 1 =>
        let st := emit st (.addLabels gitea_repo giteaIssue intended)
        labelLoop w gitea_repo giteaIssue intended f (attempt + 1)
          (sortNat (w.addLabelsResult giteaIssue attempt)) st

/-- The `for comment in comments` loop (lines 426-489): render each journal
entry and post it; the first failing render or non-ok POST aborts. -/
def postJournals (w : World) (cfg : Config) (gitea_repo : Str) (giteaIssue : Nat) :
    List Journal → Nat → St → St × Option Err
  | [], _, st => (st, none)
  | j :: rest, idx, st =>
    match renderJournal cfg j with
    | .error e => (st, some e)
    | .ok body =>
      match add_comment w st gitea_repo giteaIssue body idx with
      | (st', none) => postJournals w cfg gitea_repo giteaIssue rest (idx + 1) st'
      | (st', some e) => (st', some e)

/-- Line 394: `map_redmine_to_gitea[int(id)] = gitea_issue_id` — a plain dict
assignment; this IS the registry's record operation. -/
def recordMapping (st : St) (src tgt : Nat) : St :=
  {st with registry := setA st.registry src tgt, trace := st.trace ++ [.record src tgt]}

/-- Lines 391-406 + 426-489: the part of `create_issue` after a successful
creation response: read the new number, fetch the journals, record the id
mapping, scan the (CRLF-normalised) description, reconcile labels when the
response carried a label list, then post the journals. -/
def create_issue_success (w : World) (cfg : Config) (st : St) (issue : Issue)
    (gitea_repo : Str) (description : Str) (intended : List Nat) : St × Option Err :=
  let gitea_issue_id := w.createdNumber issue.id
  let comments := w.journals issue.id
  let st := recordMapping st issue.id gitea_issue_id
  let st := check_for_references st description gitea_repo gitea_issue_id none
  match (match w.respLabels issue.id with
         | none => (st, (none : Option Err))
         | some ls =>
           labelLoop w gitea_repo gitea_issue_id intended w.labelFuel 0 (sortNat ls) st) with
  | (st', some e) => (st', some e)
  | (st', none) => postJournals w cfg gitea_repo gitea_issue_id comments 0 st'

/-- Lines 369-383: the creation POST (and, on a 422 with an assignee present,
the single retry POST without the assignee); the outcome is decided by
`createWithRetry`. -/
def create_issue_post (w : World) (st : St) (gitea_repo : Str) (issueId : Nat)
    (hasAssignee closed : Bool) (intended : List Nat) : St × Except Err Resp :=
  let st := emit st (.createCall gitea_repo issueId hasAssignee closed intended)
  let r1 : Resp := ⟨w.createCode issueId hasAssignee⟩
  let st := if r1.code = 422 ∧ hasAssignee = true then
      emit st (.createCall gitea_repo issueId false closed intended)
    else st
  (st, createWithRetry hasAssignee r1 ⟨w.retryCode issueId⟩)

/-- Lines 326-388 for a non-private issue: build the payload (the title, the
body text and the sudo impersonation parameter matter to no claim and live
only in the request this models), compute the closed flag and the intended
label list, POST with the single assignee-removal retry, abort on a fatal
outcome. -/
def create_issue_main (w : World) (cfg : Config) (st : St) (issue : Issue)
    (gitea_repo : Str) (description : Str) (labelTable : List (Str × Nat)) : St × Option Err :=
  let closed := closedFlag issue.statusName
  let assigned_to : Str := match issue.assignedTo with | some (n, _) => n | none => "-".data
  let hasAssignee : Bool := decide (assigned_to ≠ "-".data)
  match labelIds labelTable issue.trackerName issue.statusName with
  | .error e => (st, some e)
  | .ok intended =>
    match create_issue_post w st gitea_repo issue.id hasAssignee closed intended with
    | (st', .error e) => (st', some e)
    | (st', .ok _) => create_issue_success w cfg st' issue gitea_repo description intended

/-- `create_issue` (lines 287-489): field extraction (a missing project id is
the `KeyError` of line 295), repo resolution and label fetch, then the private
check of line 323 — a private issue returns before anything is posted. -/
def create_issue (w : World) (cfg : Config) (st : St) (issue : Issue) : St × Option Err :=
  match lookupA cfg.projects issue.projectId with
  | none => (st, some Err.keyError)
  | some project =>
    let description := pyReplace issue.description ("\r\n".data) ("\n".data)
    let gitea_repo := get_gitea_repo cfg project
    let (st, labelTable) := get_labels w st gitea_repo
    if issue.is_private then (st, none)
    else create_issue_main w cfg st issue gitea_repo description labelTable

/-- The `for issue in issues` loop of `process_issues` (lines 65-66); the first
exception stops the loop (and is re-raised after the `finally`). -/
def runIssues (w : World) (cfg : Config) : St → List Issue → St × Option Err
  | st, [] => (st, none)
  | st, issue :: rest =>
    match create_issue w cfg st issue with
    | (st', none) => runIssues w cfg st' rest
    | (st', some e) => (st', some e)

/-- The registry as `json.dump(map_redmine_to_gitea, f, sort_keys=True)` writes
it: `sort_keys` sorts the mapping's items by their `int` keys (numerically),
and the encoder then stringifies each key. -/
def persistEntries (reg : List (Nat × Nat)) : List (Str × Nat) :=
  (sortLe numKeyLe reg).map (fun p => (natDigits p.1, p.2))

/-- The `finally` block of `process_issues` (lines 67-69): the whole current
mapping is written out once, whether or not the loop raised. -/
def persistSt (st : St) : St := emit st (.persist (persistEntries st.registry))

/-- One iteration of `update_comments` (lines 75-87): rewrite the stored
content through the registry and issue exactly one edit call. -/
def rewriteDeferred (st : St) (c : Deferred) : St :=
  let content := rewriteMatches st.registry c.content c.matchTokens
  emit st (.editBody c.gitea_repo c.issue_id c.comment_id content)

def update_commentsGo : St → List Deferred → St
  | st, [] => st
  | st, c :: rest => update_commentsGo (rewriteDeferred st c) rest

/-- `update_comments` (lines 74-87): the phase-2 rewrite pass. -/
def update_comments (st : St) : St := update_commentsGo st st.deferred

/-- `process_issues` (lines 59-71): phase 1 over every issue, the `finally`
persistence, and — only when phase 1 raised nothing — the phase-2 rewrite. -/
def process_issues (w : World) (cfg : Config) (issues : List Issue) : St × Option Err :=
  match runIssues w cfg St.init issues with
  | (st, none) => (update_comments (persistSt st), none)
  | (st, some e) => (persistSt st, some e)

/-! ## Concrete fixtures used by witnesses and counterexamples -/

/-- A small concrete configuration: one user, one project, no default username. -/
def cfgX : Config :=
  ⟨[(7, ⟨"alice".data, "Alice A".data⟩)], [(1, "proj".data)], none, "org".data, fun s => s⟩

/-- A benign target: creations succeed with 201, the creation response carries
no label list, issues have no journals, and `add_labels` always answers `[]`. -/
def worldX : World :=
  ⟨fun _ => [("bug".data, 1), ("migrated".data, 2), ("wontfix".data, 3)],
   fun _ _ => 201, fun _ => 201, fun i => i + 100, fun _ => none, fun _ _ => [],
   fun _ _ => true, fun _ _ => 0, fun _ => [], 5⟩

/-- A non-private Bug issue in project 1 with the given id and description. -/
def mkIssue (i : Nat) (desc : Str) : Issue :=
  ⟨i, "s".data, 1, desc, "New".data, "Bug".data, "Normal".data, false, 0, "t".data,
   none, none, "Alice A".data, 7, []⟩

/-- The concrete label table of `worldX`. -/
def tableW : List (Str × Nat) :=
  [("bug".data, 1), ("migrated".data, 2), ("wontfix".data, 3)]

/-! ## Sorting lemmas -/

theorem mem_insertLe {α : Type} (le : α → α → Bool) (x a : α) :
    ∀ l : List α, (a ∈ insertLe le x l ↔ a = x ∨ a ∈ l)
  | [] => by simp [insertLe]
  | b :: t => by
    simp only [insertLe]
    split
    · simp
    · simp only [List.mem_cons, mem_insertLe le x a t]
      tauto

theorem mem_sortLe {α : Type} (le : α → α → Bool) (a : α) :
    ∀ l : List α, (a ∈ sortLe le l ↔ a ∈ l)
  | [] => by simp [sortLe]
  | b :: t => by
    simp only [sortLe, List.foldr_cons]
    rw [show List.foldr (insertLe le) [] t = sortLe le t from rfl]
    rw [mem_insertLe, mem_sortLe le a t]
    simp

theorem pairwiseLe_tail {α : Type} (le : α → α → Bool) (b : α) (l : List α)
    (h : pairwiseLe le (b :: l) = true) : pairwiseLe le l = true := by
  cases l with
  | nil => rfl
  | cons c t => simp only [pairwiseLe, Bool.and_eq_true] at h; exact h.2

theorem pairwiseLe_head {α : Type} (le : α → α → Bool) (b a : α) (l : List α)
    (h : pairwiseLe le (b :: l) = true) (ha : l.head? = some a) : le b a = true := by
  cases l with
  | nil => simp at ha
  | cons c t =>
    simp only [List.head?_cons, Option.some.injEq] at ha
    subst ha
    simp only [pairwiseLe, Bool.and_eq_true] at h
    exact h.1

theorem pairwiseLe_cons_of {α : Type} (le : α → α → Bool) (b : α) (l : List α)
    (hl : pairwiseLe le l = true) (hb : ∀ a, l.head? = some a → le b a = true) :
    pairwiseLe le (b :: l) = true := by
  cases l with
  | nil => rfl
  | cons c t =>
    simp only [pairwiseLe, Bool.and_eq_true]
    exact ⟨hb c rfl, hl⟩

theorem insertLe_head {α : Type} (le : α → α → Bool) (x : α) (l : List α) :
    (insertLe le x l).head? = some x ∨ (insertLe le x l).head? = l.head? := by
  cases l with
  | nil => left; rfl
  | cons b t =>
    simp only [insertLe]
    split
    · left; rfl
    · right; rfl

theorem pairwiseLe_insertLe {α : Type} (le : α → α → Bool)
    (htot : ∀ a b, le a b = true ∨ le b a = true) (x : α) :
    ∀ l : List α, pairwiseLe le l = true → pairwiseLe le (insertLe le x l) = true
  | [], _ => rfl
  | b :: t, h => by
    simp only [insertLe]
    split
    · rename_i hxb
      exact pairwiseLe_cons_of le x (b :: t) h (fun a ha => by
        simp only [List.head?_cons, Option.some.injEq] at ha; subst ha; exact hxb)
    · rename_i hxb
      have hbx : le b x = true := by
        rcases htot x b with h' | h'
        · exact absurd h' hxb
        · exact h'
      refine pairwiseLe_cons_of le b _
        (pairwiseLe_insertLe le htot x t (pairwiseLe_tail le b t h)) ?_
      intro a ha
      rcases insertLe_head le x t with hh | hh
      · rw [hh] at ha
        cases ha
        exact hbx
      · rw [hh] at ha
        exact pairwiseLe_head le b a t h ha

theorem sortLe_pairwise {α : Type} (le : α → α → Bool)
    (htot : ∀ a b, le a b = true ∨ le b a = true) :
    ∀ l : List α, pairwiseLe le (sortLe le l) = true
  | [] => rfl
  | b :: t => by
    simp only [sortLe, List.foldr_cons]
    exact pairwiseLe_insertLe le htot b _ (sortLe_pairwise le htot t)

theorem natLeB_total : ∀ a b : Nat, natLeB a b = true ∨ natLeB b a = true := by
  intro a b
  simp only [natLeB, decide_eq_true_eq]
  omega

theorem numKeyLe_total : ∀ p q : Nat × Nat, numKeyLe p q = true ∨ numKeyLe q p = true :=
  fun p q => natLeB_total p.1 q.1

theorem digitChar_toNat (m : Nat) (h : m < 10) : (digitChar m).toNat = 48 + m := by
  interval_cases m <;> decide

theorem parseDigits_append (s : Str) (c : Char) :
    parseDigits (s ++ [c]) = 10 * parseDigits s + (c.toNat - 48) := by
  simp only [parseDigits, List.foldl_append, List.foldl]
  omega

theorem parseDigits_natDigitsAux : ∀ (f n : Nat), n < f →
    parseDigits (natDigitsAux f n) = n := by
  intro f
  induction f with
  | zero => intro n h; omega
  | succ f ih =>
    intro n h
    simp only [natDigitsAux]
    by_cases h10 : n < 10
    · rw [if_pos h10]
      simp only [parseDigits, List.foldl]
      rw [digitChar_toNat n h10]
      omega
    · rw [if_neg h10]
      rw [parseDigits_append]
      have hdiv : n / 10 < n := Nat.div_lt_self (by omega) (by omega)
      rw [ih (n / 10) (by omega)]
      rw [digitChar_toNat (n % 10) (Nat.mod_lt n (by omega))]
      omega

/-- The decimal rendering round-trips through `parseDigits`. -/
theorem parseDigits_natDigits (n : Nat) : parseDigits (natDigits n) = n :=
  parseDigits_natDigitsAux (n + 1) n (Nat.lt_succ_self n)

theorem pairwiseLe_map_persist : ∀ l : List (Nat × Nat), pairwiseLe numKeyLe l = true →
    pairwiseLe persistKeyLe (l.map (fun p => (natDigits p.1, p.2))) = true
  | [], _ => rfl
  | [_], _ => rfl
  | p :: q :: t, h => by
    simp only [pairwiseLe, Bool.and_eq_true] at h
    simp only [List.map_cons, pairwiseLe, Bool.and_eq_true]
    refine ⟨?_, pairwiseLe_map_persist (q :: t) h.2⟩
    simp only [persistKeyLe, parseDigits_natDigits]
    exact h.1

/-- The persisted registry is sorted by the numeric value of its keys. -/
theorem persistEntries_sorted (reg : List (Nat × Nat)) :
    pairwiseLe persistKeyLe (persistEntries reg) = true :=
  pairwiseLe_map_persist (sortLe numKeyLe reg)
    (sortLe_pairwise numKeyLe numKeyLe_total reg)

theorem exceptBind_ok {ε α β : Type} (a : α) (f : α → Except ε β) :
    (Except.ok a >>= f : Except ε β) = f a := rfl

theorem exceptBind_error {ε α β : Type} (e : ε) (f : α → Except ε β) :
    (Except.error e >>= f : Except ε β) = Except.error e := rfl

theorem exceptPure {ε α : Type} (a : α) : (pure a : Except ε α) = Except.ok a := rfl

/-! ## C3 — the registry record operation -/

theorem setA_setA_same : ∀ (m : List (Nat × Nat)) (k v : Nat),
    setA (setA m k v) k v = setA m k v
  | [], k, v => by simp [setA]
  | (k', v') :: t, k, v => by
    simp only [setA]
    split
    · rename_i h
      subst h
      simp [setA]
    · rename_i h
      simp [setA, h, setA_setA_same t k v]

theorem lookupA_setA_self : ∀ (m : List (Nat × Nat)) (k v : Nat),
    lookupA (setA m k v) k = some v
  | [], k, v => by simp [setA, lookupA]
  | (k', v') :: t, k, v => by
    simp only [setA]
    split
    · simp [lookupA]
    · rename_i h
      simp only [lookupA]
      rw [if_neg (fun h' => h h'.symm)]
      exact lookupA_setA_self t k v

theorem lookupA_setA_other : ∀ (m : List (Nat × Nat)) (k v k' : Nat), k' ≠ k →
    lookupA (setA m k v) k' = lookupA m k'
  | [], k, v, k', h => by simp [setA, lookupA, h]
  | (a, b) :: t, k, v, k', h => by
    simp only [setA]
    split
    · rename_i ha
      subst ha
      simp [lookupA, h]
    · simp only [lookupA]
      split
      · rfl
      · exact lookupA_setA_other t k v k' h

/-- Claim C3 (counterexample): `record` is the dict assignment
`map_redmine_to_gitea[int(id)] = gitea_issue_id` (line 394).  Recording source
id 1 (already mapped to 5) with the different target 7 does not fail with any
`DuplicateMappingError` — the operation is total and silently remaps the key
to 7. -/
theorem c3_record_remaps :
    setA [(1, 5)] 1 7 = [(1, 7)] ∧
    lookupA (setA [(1, 5)] 1 7) 1 = some 7 ∧ (7 : Nat) ≠ 5 := by
  refine ⟨rfl, rfl, by decide⟩

/-- Claim C3 (amended): recording the same `(sourceID, targetID)` pair twice is
a no-op, but recording a sourceID that is already present with a different
targetID silently overwrites the mapping (plain Python dict assignment) — no
`DuplicateMappingError` exists in the code and keys CAN be remapped; entries
for other keys are untouched. -/
theorem c3_record_dict_semantics (m : List (Nat × Nat)) (k v : Nat) :
    setA (setA m k v) k v = setA m k v ∧
    lookupA (setA m k v) k = some v ∧
    (∀ k', k' ≠ k → lookupA (setA m k v) k' = lookupA m k') :=
  ⟨setA_setA_same m k v, lookupA_setA_self m k v,
   fun k' h => lookupA_setA_other m k v k' h⟩

/-- Witness for C3's amended theorem at the concrete registry `[(1, 5)]`,
new record `(2, 6)`, other key `1`. -/
theorem c3_record_dict_semantics_witness :
    setA (setA [(1, 5)] 2 6) 2 6 = setA [(1, 5)] 2 6 ∧
    lookupA (setA [(1, 5)] 2 6) 2 = some 6 ∧
    lookupA (setA [(1, 5)] 2 6) 1 = lookupA [(1, 5)] 1 :=
  ⟨(c3_record_dict_semantics [(1, 5)] 2 6).1,
   (c3_record_dict_semantics [(1, 5)] 2 6).2.1,
   (c3_record_dict_semantics [(1, 5)] 2 6).2.2 1 (by decide)⟩

/-! ## C7 — the assignee-rejection retry -/

/-- Claim C7: the creation POST is retried (exactly once, with the assignee
field removed) if and only if the first response is the 422 with which the
target rejects an unresolvable assignee; a success of the retry is the
overall success; a non-ok retry response, or any non-ok non-422 first
response, aborts the run (`SystemExit`); a 422 when no assignee was set
aborts too (the `del data['assignee']` raises `KeyError`).  The independence
from `r2'` in the third conjunct is the "only if": without a 422 no second
POST is consulted. -/
theorem c7_assignee_retry (hasA : Bool) (r1 r2 r2' : Resp) :
    (r1.code = 422 → hasA = true → respOk r2 = true →
      createWithRetry hasA r1 r2 = .ok r2) ∧
    (r1.code = 422 → hasA = true → respOk r2 = false →
      createWithRetry hasA r1 r2 = .error .systemExit) ∧
    (r1.code = 422 → hasA = false → createWithRetry hasA r1 r2 = .error .keyError) ∧
    (r1.code ≠ 422 → createWithRetry hasA r1 r2 = createWithRetry hasA r1 r2') ∧
    (r1.code ≠ 422 → respOk r1 = true → createWithRetry hasA r1 r2 = .ok r1) ∧
    (r1.code ≠ 422 → respOk r1 = false → createWithRetry hasA r1 r2 = .error .systemExit) := by
  unfold createWithRetry
  refine ⟨?_, ?_, ?_, ?_, ?_, ?_⟩ <;> intros <;> simp_all

/-- Witness for C7 at a concrete 422-then-201 exchange. -/
theorem c7_assignee_retry_witness :
    createWithRetry true ⟨422⟩ ⟨201⟩ = .ok ⟨201⟩ :=
  (c7_assignee_retry true ⟨422⟩ ⟨201⟩ ⟨500⟩).1 rfl rfl (by decide)

/-! ## C5 — the label-reconciliation loop -/

/-- Claim C5 (code bug): against a target that always reports the mismatching
label set `[]` for the intended `[1, 2]`, the reconciliation loop of lines
402-406 is still running after ANY number `fuel` of re-assertions — the
source's `while gitea_labels != data['labels']` has no retry cap and no
bounded-retry-exceeded error, so it loops unboundedly. -/
theorem c5_label_loop_unbounded :
    ∀ (fuel attempt : Nat) (st : St),
      (labelLoop worldX ("r".data) 1 [1, 2] fuel attempt [] st).2 = some Err.fuel := by
  intro fuel
  induction fuel with
  | zero => intro attempt st; rfl
  | succ f ih =>
    intro attempt st
    show (labelLoop worldX ("r".data) 1 [1, 2] (f + 1) attempt [] st).2 = some Err.fuel
    simp only [labelLoop]
    split
    · rename_i h
      exact absurd h (by decide)
    · exact ih (attempt + 1) _

/-! ## C6 — the field translation -/

/-- Claim C6 (counterexample): for tracker `Bug` and status `Rejected` the code
produces the label set `{bug, migrated, wontfix}` — lines 360-361 ALWAYS add
the `migrated` label — not the claimed `{bug, wontfix}` (ids `[1, 3]` in this
table); the closed flag is true as claimed. -/
theorem c6_labels_counterexample :
    labelIds tableW ("Bug".data) ("Rejected".data) = .ok [1, 2, 3] ∧
    closedFlag ("Rejected".data) = true ∧
    [1, 2, 3] ≠ [1, 3] := by
  refine ⟨rfl, rfl, by decide⟩

/-- Claim C6 (amended): for a tracker with type label `tt`, the produced label
id set is `{tt, migrated}` plus the `wontfix` id iff the status is `Rejected`
(so Bug/Rejected yields `{bug, migrated, wontfix}`), the list is sorted, and
the closed flag holds iff the status is `Resolved`, `Closed` or `Rejected`. -/
theorem c6_label_translation (table : List (Str × Nat)) (tracker status key : Str)
    (tt tm tw : Nat)
    (h0 : lookupA issue_type_map_names tracker = some key)
    (h1 : lookupA table key = some tt)
    (h2 : lookupA table ("migrated".data) = some tm)
    (h3 : lookupA table ("wontfix".data) = some tw) :
    ∃ ids, labelIds table tracker status = .ok ids ∧
      (∀ n, n ∈ ids ↔ (n = tt ∨ n = tm ∨ (status = "Rejected".data ∧ n = tw))) ∧
      pairwiseLe natLeB ids = true ∧
      (closedFlag status = true ↔
        (status = "Resolved".data ∨ status = "Closed".data ∨ status = "Rejected".data)) := by
  by_cases hs : status = "Rejected".data
  · refine ⟨sortNat [tt, tm, tw], ?_, ?_, ?_, ?_⟩
    · simp [labelIds, h0, h1, h2, h3, keyed, hs, exceptBind_ok]
    · intro n
      rw [show sortNat [tt, tm, tw] = sortLe natLeB [tt, tm, tw] from rfl]
      rw [mem_sortLe]
      simp [hs]
    · exact sortLe_pairwise natLeB natLeB_total [tt, tm, tw]
    · simp [closedFlag, hs]
  · refine ⟨sortNat [tt, tm], ?_, ?_, ?_, ?_⟩
    · simp [labelIds, h0, h1, h2, h3, keyed, hs, exceptBind_ok]
    · intro n
      rw [show sortNat [tt, tm] = sortLe natLeB [tt, tm] from rfl]
      rw [mem_sortLe]
      simp [hs]
    · exact sortLe_pairwise natLeB natLeB_total [tt, tm]
    · simp [closedFlag, hs]

/-- Witness for C6's amended theorem at the concrete table and Bug/Rejected. -/
theorem c6_label_translation_witness :
    ∃ ids, labelIds tableW ("Bug".data) ("Rejected".data) = .ok ids ∧
      (∀ n, n ∈ ids ↔ (n = 1 ∨ n = 2 ∨ (("Rejected".data : Str) = "Rejected".data ∧ n = 3))) ∧
      pairwiseLe natLeB ids = true ∧
      (closedFlag ("Rejected".data) = true ↔
        (("Rejected".data : Str) = "Resolved".data ∨ ("Rejected".data : Str) = "Closed".data ∨
         ("Rejected".data : Str) = "Rejected".data)) :=
  c6_label_translation tableW ("Bug".data) ("Rejected".data) ("bug".data) 1 2 3 rfl rfl rfl rfl

/-! ## C10 and C9 — the journal renderer -/

theorem allDigits_ne_lit (s : Str) (h : s.all Char.isDigit = true) (t : Str)
    (ht : t.all Char.isDigit = false) : s ≠ t := by
  intro he
  rw [he] at h
  rw [h] at ht
  cases ht

theorem allDigits_not_relation (s : Str) (h : s.all Char.isDigit = true) :
    s ∉ relation_types := by
  intro hm
  simp only [relation_types, List.mem_cons, List.not_mem_nil, or_false] at hm
  rcases hm with he | he | he | he | he | he | he | he | he <;>
    exact absurd he (allDigits_ne_lit s h _ (by decide))

theorem isEmpty_false_of_ne {α : Type} (l : List α) (h : l ≠ []) : l.isEmpty = false := by
  cases l with
  | nil => exact absurd rfl h
  | cons a t => rfl

/-- A field change whose property name is entirely digits produces no clause
and no error: the `if not property_name.isnumeric()` of line 472 skips it,
and none of the value-resolution branches of lines 443-470 fires for a purely
numeric name. -/
theorem processDetail_numeric (cfg : Config) (d : Detail)
    (h1 : d.name.all Char.isDigit = true) (h2 : d.name ≠ []) :
    processDetail cfg d = .ok none := by
  have hdr : d.name ≠ "done_ratio".data := allDigits_ne_lit _ h1 _ (by decide)
  have hrel : d.name ∉ relation_types := allDigits_not_relation _ h1
  have hst : d.name ≠ "status_id".data := allDigits_ne_lit _ h1 _ (by decide)
  have htr : d.name ≠ "tracker_id".data := allDigits_ne_lit _ h1 _ (by decide)
  have hpj : d.name ≠ "project_id".data := allDigits_ne_lit _ h1 _ (by decide)
  have has : d.name ≠ "assigned_to_id".data := allDigits_ne_lit _ h1 _ (by decide)
  have hsu : d.name ≠ "subject".data := allDigits_ne_lit _ h1 _ (by decide)
  have hde : d.name ≠ "description".data := allDigits_ne_lit _ h1 _ (by decide)
  have hnum : pyIsNumeric d.name = true := by
    simp [pyIsNumeric, h1, isEmpty_false_of_ne _ h2]
  simp [processDetail, hdr, hrel, hst, htr, hpj, has, hsu, hde, hnum, exceptBind_ok, exceptPure]

/-- Claim C10: a FieldChange whose property name consists entirely of digits
contributes no clause to the comment body (silently omitted, no failure),
while the note, the other clauses and the timestamp line render exactly as
they would without it. -/
theorem c10_numeric_property_omitted (cfg : Config) (d : Detail) (j : Journal)
    (h1 : d.name.all Char.isDigit = true) (h2 : d.name ≠ []) :
    processDetail cfg d = .ok none ∧
    renderJournal cfg {j with details := d :: j.details} = renderJournal cfg j := by
  have hpd := processDetail_numeric cfg d h1 h2
  refine ⟨hpd, ?_⟩
  have hds : processDetails cfg (d :: j.details) = processDetails cfg j.details := by
    simp only [processDetails, hpd, exceptBind_ok]
    cases processDetails cfg j.details <;> rfl
  cases hres : processDetails cfg j.details <;>
    simp [renderJournal, hds, hres, appendUserLine, userIsDefault, exceptBind_ok, exceptPure]

/-- An unrecognized numeric-coded property change.  -/
def dNum : Detail := ⟨"attr".data, "12345".data, some ("1".data), some ("2".data)⟩

/-- A journal entry with a note and one recognized (done-ratio) change. -/
def jW : Journal :=
  ⟨7, "Alice A".data, some ("note".data), "T".data,
   [⟨"attr".data, "done_ratio".data, some ("20".data), some ("50".data)⟩]⟩

/-- Witness for C10 at the concrete `dNum` / `jW`. -/
theorem c10_numeric_property_omitted_witness :
    processDetail cfgX dNum = .ok none ∧
    renderJournal cfgX {jW with details := dNum :: jW.details} = renderJournal cfgX jW :=
  c10_numeric_property_omitted cfgX dNum jW (by decide) (by decide)

/-- Claim C9 (counterexample): for an event with no note and no field changes
whose acting user resolves to the configured default username (user id 99 is
not in the user table, `DEFAULT_USERNAME` is `mig`), lines 486-487 append an
attribution line, so the rendered body is NOT just the timestamp line. -/
theorem c9_default_user_counterexample :
    renderJournal (⟨[], [], some ("mig".data), "org".data, fun s => s⟩ : Config)
        (⟨99, "Bob B".data, none, "T".data, []⟩ : Journal)
      = .ok ("\n\n*Date: T*\n*User: Bob B*".data) ∧
    ("\n\n*Date: T*\n*User: Bob B*".data : Str) ≠ "\n\n*Date: T*".data := by
  refine ⟨rfl, by decide⟩

/-- Claim C9 (amended): an event with no note and no field changes renders
(without failing and without being skipped) as exactly the timestamp line,
PROVIDED the acting user does not render as the default username — otherwise
the attribution line of lines 486-487 follows the timestamp line; and the
`\n***\n` separator rule is inserted exactly when both the note and the
clause list are non-empty: with an empty clause list the body is the note
followed by the timestamp suffix, with an empty note it is the joined clauses
followed by the timestamp suffix, and with both non-empty the separator
stands between them. -/
theorem c9_empty_event_render (cfg : Config) (j j2 j3 j4 : Journal) (ns2 ns4 : Str)
    (cl3 cl4 : List Str)
    (h1 : j.notes = none ∨ j.notes = some []) (h2 : j.details = [])
    (h3 : userIsDefault cfg j.userId = false)
    (ha1 : j2.notes = some ns2) (ha2 : ns2 ≠ [])
    (ha3 : processDetails cfg j2.details = .ok [])
    (hb1 : j3.notes = none ∨ j3.notes = some [])
    (hb2 : processDetails cfg j3.details = .ok cl3)
    (hc1 : j4.notes = some ns4) (hc2 : ns4 ≠ [])
    (hc3 : processDetails cfg j4.details = .ok cl4) (hc4 : cl4 ≠ []) :
    renderJournal cfg j = .ok (tsSuffix (cfg.formatTime j.created_on)) ∧
    renderJournal cfg j2 =
      .ok (appendUserLine cfg j2 (ns2 ++ tsSuffix (cfg.formatTime j2.created_on))) ∧
    renderJournal cfg j3 =
      .ok (appendUserLine cfg j3 (joinNL cl3 ++ tsSuffix (cfg.formatTime j3.created_on))) ∧
    renderJournal cfg j4 =
      .ok (appendUserLine cfg j4 (ns4 ++ "\n***\n".data ++ joinNL cl4
            ++ tsSuffix (cfg.formatTime j4.created_on))) := by
  refine ⟨?_, ?_, ?_, ?_⟩
  · have hd : processDetails cfg j.details = .ok [] := by rw [h2]; rfl
    rcases h1 with hn | hn <;>
      simp [renderJournal, hd, hn, joinNL, appendUserLine, h3, exceptBind_ok, exceptPure]
  · simp [renderJournal, ha3, ha1, ha2, joinNL, exceptBind_ok, exceptPure]
  · rcases hb1 with hn | hn <;> simp [renderJournal, hb2, hn, exceptBind_ok, exceptPure]
  · simp [renderJournal, hc3, hc1, hc2, hc4, exceptBind_ok, exceptPure]

/-- Witness for C9's amended theorem: four concrete journal entries (empty,
note-only, clauses-only, both) under `cfgX`. -/
theorem c9_empty_event_render_witness :
    renderJournal cfgX (⟨7, "Alice A".data, none, "T".data, []⟩ : Journal)
      = .ok (tsSuffix (cfgX.formatTime ("T".data))) ∧
    renderJournal cfgX (⟨7, "Alice A".data, some ("hi".data), "T".data, []⟩ : Journal) =
      .ok (appendUserLine cfgX (⟨7, "Alice A".data, some ("hi".data), "T".data, []⟩ : Journal)
        ("hi".data ++ tsSuffix (cfgX.formatTime ("T".data)))) ∧
    renderJournal cfgX (⟨7, "Alice A".data, none, "T".data, jW.details⟩ : Journal) =
      .ok (appendUserLine cfgX (⟨7, "Alice A".data, none, "T".data, jW.details⟩ : Journal)
        (joinNL ["*`done_ratio` changed from 20% to 50%*".data]
          ++ tsSuffix (cfgX.formatTime ("T".data)))) ∧
    renderJournal cfgX (⟨7, "Alice A".data, some ("hi".data), "T".data, jW.details⟩ : Journal) =
      .ok (appendUserLine cfgX
        (⟨7, "Alice A".data, some ("hi".data), "T".data, jW.details⟩ : Journal)
        ("hi".data ++ "\n***\n".data ++ joinNL ["*`done_ratio` changed from 20% to 50%*".data]
          ++ tsSuffix (cfgX.formatTime ("T".data)))) :=
  c9_empty_event_render cfgX
    (⟨7, "Alice A".data, none, "T".data, []⟩ : Journal)
    (⟨7, "Alice A".data, some ("hi".data), "T".data, []⟩ : Journal)
    (⟨7, "Alice A".data, none, "T".data, jW.details⟩ : Journal)
    (⟨7, "Alice A".data, some ("hi".data), "T".data, jW.details⟩ : Journal)
    ("hi".data) ("hi".data)
    (["*`done_ratio` changed from 20% to 50%*".data])
    (["*`done_ratio` changed from 20% to 50%*".data])
    (Or.inl rfl) rfl rfl rfl (by decide) rfl (Or.inl rfl) rfl rfl (by decide) rfl (by decide)

/-! ## C2 — the reference rewrite -/

theorem occursB_of_isPrefixOf (pat s : Str) (h : pat.isPrefixOf s = true) :
    occursB pat s = true := by
  cases s with
  | nil =>
    cases pat with
    | nil => rfl
    | cons c t => simp [List.isPrefixOf] at h
  | cons c rest => simp [occursB, h]

theorem occursB_cons (pat : Str) (c : Char) (s : Str) (h : occursB pat s = true) :
    occursB pat (c :: s) = true := by simp [occursB, h]

theorem occursB_append_left (pat : Str) : ∀ (l s : Str), occursB pat s = true →
    occursB pat (l ++ s) = true
  | [], _, h => h
  | c :: l, s, h => occursB_cons pat c (l ++ s) (occursB_append_left pat l s h)

theorem isPrefixOf_append_self : ∀ (l x : Str), l.isPrefixOf (l ++ x) = true
  | [], _ => by simp [List.isPrefixOf]
  | c :: t, x => by simp [List.isPrefixOf, isPrefixOf_append_self t x]

theorem occursB_replace (pat rep : Str) (hne : pat ≠ []) :
    ∀ s, occursB pat s = true → occursB rep (pyReplace s pat rep) = true
  | [], h => by
    simp [occursB, isEmpty_false_of_ne pat hne] at h
  | c :: rest, h => by
    show occursB rep (pyReplaceGo pat rep (c :: rest) 0) = true
    simp only [pyReplaceGo]
    split
    · exact occursB_of_isPrefixOf rep _ (isPrefixOf_append_self rep _)
    · rename_i hcond
      have hpre : pat.isPrefixOf (c :: rest) = false := by
        cases hp : pat.isPrefixOf (c :: rest)
        · rfl
        · exact absurd ⟨hne, hp⟩ hcond
      have hrest : occursB pat rest = true := by
        simp only [occursB, hpre, Bool.false_or] at h
        exact h
      exact occursB_cons rep c _ (occursB_replace pat rep hne rest hrest)

/-- The virtual text a scanner state stands for: in state `some acc` the
scanner has already consumed `'#' :: acc`. -/
def modeText : Option Str → Str → Str
  | none, s => s
  | some acc, s => '#' :: (acc ++ s)

theorem scanAux_occurs : ∀ (s : Str) (mode : Option Str) (t : Str),
    t ∈ scanAux s mode → occursB t (modeText mode s) = true
  | [], none, t => by simp [scanAux]
  | [], some acc, t => by
    intro hm
    by_cases ha : acc.isEmpty
    · simp [scanAux, ha] at hm
    · simp only [scanAux, ha, Bool.false_eq_true, if_false, List.mem_singleton] at hm
      subst hm
      apply occursB_of_isPrefixOf
      simp [List.isPrefixOf, isPrefixOf_append_self]
  | c :: rest, none, t => by
    intro hm
    by_cases hc : c = '#'
    · subst hc
      simp only [scanAux, if_pos rfl] at hm
      have h := scanAux_occurs rest (some []) t hm
      simpa [modeText] using h
    · simp only [scanAux, if_neg hc] at hm
      exact occursB_cons t c rest (scanAux_occurs rest none t hm)
  | c :: rest, some acc, t => by
    intro hm
    by_cases hd : c.isDigit
    · simp only [scanAux, if_pos hd] at hm
      have h := scanAux_occurs rest (some (acc ++ [c])) t hm
      simp only [modeText] at h ⊢
      rw [List.append_assoc] at h
      simpa using h
    · simp only [scanAux, if_neg (by simp [hd] : ¬c.isDigit = true)] at hm
      by_cases ha : acc.isEmpty
      · have hae : acc = [] := by
          cases acc with
          | nil => rfl
          | cons x xs => simp [List.isEmpty] at ha
        subst hae
        simp only [if_pos ha] at hm
        by_cases hc : c = '#'
        · subst hc
          simp only [if_pos rfl] at hm
          have h := scanAux_occurs rest (some []) t hm
          simp only [modeText] at h ⊢
          exact occursB_cons t '#' _ (by simpa using h)
        · simp only [if_neg hc] at hm
          have h := scanAux_occurs rest none t hm
          simp only [modeText]
          exact occursB_cons t '#' _ (occursB_cons t c _ h)
      · simp only [if_neg (by simp [ha] : ¬acc.isEmpty = true), List.mem_cons] at hm
        rcases hm with he | hm
        · subst he
          apply occursB_of_isPrefixOf
          simp [List.isPrefixOf, isPrefixOf_append_self]
        · by_cases hc : c = '#'
          · subst hc
            simp only [if_pos rfl] at hm
            have h := scanAux_occurs rest (some []) t hm
            simp only [modeText] at h ⊢
            exact occursB_append_left t ('#' :: acc) _ (by simpa using h)
          · simp only [if_neg hc] at hm
            have h := scanAux_occurs rest none t hm
            simp only [modeText]
            have h2 := occursB_append_left t ('#' :: (acc ++ [c])) rest h
            simp only [List.cons_append, List.append_assoc, List.singleton_append] at h2
            exact h2

theorem scanRefs_occurs (s t : Str) (h : t ∈ scanRefs s) : occursB t s = true :=
  scanAux_occurs s none t h

theorem scanAux_ne_nil : ∀ (s : Str) (mode : Option Str) (t : Str),
    t ∈ scanAux s mode → t ≠ []
  | [], none, t => by simp [scanAux]
  | [], some acc, t => by
    intro hm
    by_cases ha : acc.isEmpty
    · simp [scanAux, ha] at hm
    · simp only [scanAux, ha, Bool.false_eq_true, if_false, List.mem_singleton] at hm
      subst hm
      simp
  | c :: rest, none, t => by
    intro hm
    by_cases hc : c = '#'
    · subst hc
      simp only [scanAux, if_pos rfl] at hm
      exact scanAux_ne_nil rest (some []) t hm
    · simp only [scanAux, if_neg hc] at hm
      exact scanAux_ne_nil rest none t hm
  | c :: rest, some acc, t => by
    intro hm
    by_cases hd : c.isDigit
    · simp only [scanAux, if_pos hd] at hm
      exact scanAux_ne_nil rest (some (acc ++ [c])) t hm
    · simp only [scanAux, if_neg (by simp [hd] : ¬c.isDigit = true)] at hm
      by_cases ha : acc.isEmpty
      · simp only [if_pos ha] at hm
        by_cases hc : c = '#'
        · subst hc
          simp only [if_pos rfl] at hm
          exact scanAux_ne_nil rest (some []) t hm
        · simp only [if_neg hc] at hm
          exact scanAux_ne_nil rest none t hm
      · simp only [if_neg (by simp [ha] : ¬acc.isEmpty = true), List.mem_cons] at hm
        rcases hm with he | hm
        · subst he; simp
        · by_cases hc : c = '#'
          · subst hc
            simp only [if_pos rfl] at hm
            exact scanAux_ne_nil rest (some []) t hm
          · simp only [if_neg hc] at hm
            exact scanAux_ne_nil rest none t hm

theorem scanRefs_ne_nil (s t : Str) (h : t ∈ scanRefs s) : t ≠ [] :=
  scanAux_ne_nil s none t h

/-- The text of the C2 counterexample: token `#12` is a proper prefix of the
later token `#123`. -/
def contentC2 : Str := "see #12 and #123".data

/-- A registry resolving both tokens of `contentC2`. -/
def regC2 : List (Nat × Nat) := [(12, 1), (123, 2)]

/-- Claim C2 (counterexample): in `see #12 and #123` both tokens resolve
(`12 ↦ 1`, `123 ↦ 2`), yet the rewritten text does NOT contain the composite
form `#2 (redmine id: 123)` for the second token: replacing the first token
with `str.replace` also mangles the `#12` prefix inside `#123`, leaving
`... #1 (redmine id: 12)3`. -/
theorem c2_prefix_token_corrupts :
    (scanRefs contentC2).map (fun t => lookupA regC2 (parseDigits (t.drop 1)))
      = [some 1, some 2] ∧
    occursB (composite 2 123) (rewriteMatches regC2 contentC2 (scanRefs contentC2)) = false ∧
    rewriteMatches regC2 contentC2 (scanRefs contentC2)
      = "see #1 (redmine id: 12) and #1 (redmine id: 12)3".data := by
  refine ⟨by decide, by decide, by decide⟩

/-- Claim C2 (amended): for a DeferredReference whose match list is a single
token that resolves through the registry to `g`, the rewritten text contains
the composite `#g (redmine id: old)` form.  With several tokens the guarantee
fails (see the counterexample): `str.replace` is substring-based, so a token
that occurs as a prefix of another corrupts the rewrite; and since the
replacement itself reintroduces a `#<digits>` reference for the new id, the
rewritten text is never free of reference-shaped tokens. -/
theorem c2_single_token_rewrite (reg : List (Nat × Nat)) (content t : Str) (g : Nat)
    (h1 : scanRefs content = [t])
    (h2 : lookupA reg (parseDigits (t.drop 1)) = some g) :
    occursB (composite g (parseDigits (t.drop 1)))
      (rewriteMatches reg content (scanRefs content)) = true := by
  have htm : t ∈ scanRefs content := by rw [h1]; exact List.mem_cons_self t []
  have hocc : occursB t content = true := scanRefs_occurs content t htm
  have hne : t ≠ [] := scanRefs_ne_nil content t htm
  rw [h1]
  simp only [rewriteMatches, h2]
  exact occursB_replace t (composite g (parseDigits (t.drop 1))) hne content hocc

/-- Witness for C2's amended theorem on `fix #5 now` with `5 ↦ 9`. -/
theorem c2_single_token_rewrite_witness :
    occursB (composite 9 (parseDigits (("#5".data).drop 1)))
      (rewriteMatches [(5, 9)] ("fix #5 now".data) (scanRefs ("fix #5 now".data))) = true :=
  c2_single_token_rewrite [(5, 9)] ("fix #5 now".data) ("#5".data) 9 (by decide) (by decide)

/-! ## Event classifiers and trace-extension machinery for C1, C4, C8 -/

def isRw : Event → Bool
  | .editBody _ _ _ _ => true
  | _ => false

def isRecordEv : Event → Bool
  | .record _ _ => true
  | _ => false

def isPersistEv : Event → Bool
  | .persist _ => true
  | _ => false

def isCreateEv : Event → Bool
  | .createCall _ _ _ _ _ => true
  | _ => false

def isPostEv : Event → Bool
  | .postComment _ _ _ => true
  | _ => false

def isAddLabelsEv : Event → Bool
  | .addLabels _ _ _ => true
  | _ => false

/-- Phase-1 events: everything but persistence and phase-2 edits. -/
def phase1Ev (e : Event) : Bool := !isRw e && !isPersistEv e

theorem phase1Ev_not_rw (e : Event) (h : phase1Ev e = true) : isRw e = false := by
  cases e <;> simp_all [phase1Ev, isRw, isPersistEv]

theorem phase1Ev_not_persist (e : Event) (h : phase1Ev e = true) : isPersistEv e = false := by
  cases e <;> simp_all [phase1Ev, isRw, isPersistEv]

theorem isRw_not_record (e : Event) (h : isRw e = true) : isRecordEv e = false := by
  cases e <;> simp_all [isRw, isRecordEv]

theorem isRw_not_persist (e : Event) (h : isRw e = true) : isPersistEv e = false := by
  cases e <;> simp_all [isRw, isPersistEv]

/-- `st'` extends `st` by appending only events satisfying `P` to the trace. -/
def TraceApp (P : Event → Bool) (st st' : St) : Prop :=
  ∃ new, st'.trace = st.trace ++ new ∧ ∀ e ∈ new, P e = true

theorem traceApp_self (P : Event → Bool) (st : St) : TraceApp P st st :=
  ⟨[], by simp, by simp⟩

theorem traceApp_of_eq (P : Event → Bool) {s1 s2 : St} (h : s2.trace = s1.trace) :
    TraceApp P s1 s2 := ⟨[], by simp [h], by simp⟩

theorem traceApp_trans (P : Event → Bool) {s1 s2 s3 : St}
    (h1 : TraceApp P s1 s2) (h2 : TraceApp P s2 s3) : TraceApp P s1 s3 := by
  obtain ⟨n1, e1, p1⟩ := h1
  obtain ⟨n2, e2, p2⟩ := h2
  refine ⟨n1 ++ n2, by rw [e2, e1, List.append_assoc], ?_⟩
  intro e he
  rcases List.mem_append.1 he with h | h
  · exact p1 e h
  · exact p2 e h

theorem traceApp_emit (P : Event → Bool) (st : St) (e : Event) (he : P e = true) :
    TraceApp P st (emit st e) := ⟨[e], rfl, by simpa⟩

theorem get_labels_phase1 (w : World) (st : St) (r : Str) :
    TraceApp phase1Ev st (get_labels w st r).1 := by
  unfold get_labels
  split
  · exact traceApp_self _ _
  · exact ⟨[.fetchLabels r], rfl, by simp [phase1Ev, isRw, isPersistEv]⟩

theorem get_labels_state (w : World) (st : St) (r : Str) :
    (get_labels w st r).1.registry = st.registry ∧
    (get_labels w st r).1.deferred = st.deferred ∧
    ((get_labels w st r).1.trace = st.trace ∨
      (get_labels w st r).1.trace = st.trace ++ [.fetchLabels r]) := by
  unfold get_labels
  split
  · exact ⟨rfl, rfl, Or.inl rfl⟩
  · exact ⟨rfl, rfl, Or.inr rfl⟩

theorem check_for_references_trace (st : St) (c : Str) (r : Str) (i : Nat) (cid : Option Nat) :
    (check_for_references st c r i cid).trace = st.trace := by
  simp only [check_for_references]
  split <;> rfl

theorem add_comment_phase1 (w : World) (st : St) (r : Str) (i : Nat) (b : Str) (idx : Nat) :
    TraceApp phase1Ev st (add_comment w st r i b idx).1 := by
  unfold add_comment
  split
  · refine ⟨[.postComment r i b], ?_, by simp [phase1Ev, isRw, isPersistEv]⟩
    rw [check_for_references_trace]
    rfl
  · exact ⟨[.postComment r i b], rfl, by simp [phase1Ev, isRw, isPersistEv]⟩

theorem labelLoop_phase1 (w : World) (r : Str) (g : Nat) (intended : List Nat) :
    ∀ (fuel attempt : Nat) (current : List Nat) (st : St),
      TraceApp phase1Ev st (labelLoop w r g intended fuel attempt current st).1 := by
  intro fuel
  induction fuel with
  | zero =>
    intro attempt current st
    simp only [labelLoop]
    split
    · exact traceApp_self _ _
    · exact traceApp_self _ _
  | succ f ih =>
    intro attempt current st
    simp only [labelLoop]
    split
    · exact traceApp_self _ _
    · exact traceApp_trans _
        (traceApp_emit _ st _ (by simp [phase1Ev, isRw, isPersistEv])) (ih _ _ _)

theorem postJournals_phase1 (w : World) (cfg : Config) (r : Str) (g : Nat) :
    ∀ (js : List Journal) (idx : Nat) (st : St),
      TraceApp phase1Ev st (postJournals w cfg r g js idx st).1 := by
  intro js
  induction js with
  | nil => intro idx st; exact traceApp_self _ _
  | cons j rest ih =>
    intro idx st
    simp only [postJournals]
    split
    · exact traceApp_self _ _
    · rename_i body heq
      rcases hac : add_comment w st r g body idx with ⟨st', e?⟩
      have h1 : TraceApp phase1Ev st st' := by
        have := add_comment_phase1 w st r g body idx
        rw [hac] at this
        exact this
      cases e? with
      | none => simp only [hac]; exact traceApp_trans _ h1 (ih _ _)
      | some e => simp only [hac]; exact h1

theorem recordMapping_phase1 (st : St) (a b : Nat) :
    TraceApp phase1Ev st (recordMapping st a b) :=
  ⟨[.record a b], rfl, by simp [phase1Ev, isRw, isPersistEv]⟩

theorem create_issue_success_phase1 (w : World) (cfg : Config) (st : St) (issue : Issue)
    (r : Str) (d : Str) (intended : List Nat) :
    TraceApp phase1Ev st (create_issue_success w cfg st issue r d intended).1 := by
  have h1 : TraceApp phase1Ev st
      (check_for_references (recordMapping st issue.id (w.createdNumber issue.id)) d r
        (w.createdNumber issue.id) none) :=
    traceApp_trans _ (recordMapping_phase1 st issue.id (w.createdNumber issue.id))
      (traceApp_of_eq _
        (check_for_references_trace (recordMapping st issue.id (w.createdNumber issue.id))
          d r (w.createdNumber issue.id) none))
  unfold create_issue_success
  cases hrl : w.respLabels issue.id with
  | none =>
    simp only [hrl]
    exact traceApp_trans _ h1
      (postJournals_phase1 w cfg r (w.createdNumber issue.id) (w.journals issue.id) 0 _)
  | some ls =>
    simp only [hrl]
    rcases hll : labelLoop w r (w.createdNumber issue.id) intended w.labelFuel 0 (sortNat ls)
        (check_for_references (recordMapping st issue.id (w.createdNumber issue.id)) d r
          (w.createdNumber issue.id) none) with ⟨st', e?⟩
    have h2 : TraceApp phase1Ev st st' := by
      have h3 := labelLoop_phase1 w r (w.createdNumber issue.id) intended w.labelFuel 0
        (sortNat ls)
        (check_for_references (recordMapping st issue.id (w.createdNumber issue.id)) d r
          (w.createdNumber issue.id) none)
      rw [hll] at h3
      exact traceApp_trans _ h1 h3
    cases e? with
    | none =>
      exact traceApp_trans _ h2
        (postJournals_phase1 w cfg r (w.createdNumber issue.id) (w.journals issue.id) 0 st')
    | some e => exact h2

theorem create_issue_post_phase1 (w : World) (st : St) (r : Str) (i : Nat)
    (hA cl : Bool) (intended : List Nat) :
    TraceApp phase1Ev st (create_issue_post w st r i hA cl intended).1 := by
  simp only [create_issue_post]
  split
  · exact traceApp_trans _
      (traceApp_emit _ st _ (by simp [phase1Ev, isRw, isPersistEv]))
      (traceApp_emit _ _ _ (by simp [phase1Ev, isRw, isPersistEv]))
  · exact traceApp_emit _ st _ (by simp [phase1Ev, isRw, isPersistEv])

theorem create_issue_main_phase1 (w : World) (cfg : Config) (st : St) (issue : Issue)
    (r : Str) (d : Str) (tbl : List (Str × Nat)) :
    TraceApp phase1Ev st (create_issue_main w cfg st issue r d tbl).1 := by
  unfold create_issue_main
  cases hli : labelIds tbl issue.trackerName issue.statusName with
  | error e => simp only [hli]; exact traceApp_self _ _
  | ok intended =>
    simp only [hli]
    have hall : ∀ hA cl : Bool,
        TraceApp phase1Ev st
          (match create_issue_post w st r issue.id hA cl intended with
           | (st', .error e) => (st', some e)
           | (st', .ok _) => create_issue_success w cfg st' issue r d intended).1 := by
      intro hA cl
      rcases hpost : create_issue_post w st r issue.id hA cl intended with ⟨st', res⟩
      have h1 : TraceApp phase1Ev st st' := by
        have h2 := create_issue_post_phase1 w st r issue.id hA cl intended
        rw [hpost] at h2
        exact h2
      cases res with
      | error e => exact h1
      | ok resp =>
        exact traceApp_trans _ h1 (create_issue_success_phase1 w cfg st' issue r d intended)
    exact hall _ _

theorem create_issue_phase1 (w : World) (cfg : Config) (st : St) (issue : Issue) :
    TraceApp phase1Ev st (create_issue w cfg st issue).1 := by
  unfold create_issue
  cases hp : lookupA cfg.projects issue.projectId with
  | none => simp only [hp]; exact traceApp_self _ _
  | some project =>
    simp only [hp]
    rcases hgl : get_labels w st (get_gitea_repo cfg project) with ⟨st1, tbl⟩
    have h1 : TraceApp phase1Ev st st1 := by
      have h2 := get_labels_phase1 w st (get_gitea_repo cfg project)
      rw [hgl] at h2
      exact h2
    by_cases hpr : issue.is_private = true
    · simp only [hpr, if_true]
      exact h1
    · simp only [hpr, if_false]
      exact traceApp_trans _ h1
        (create_issue_main_phase1 w cfg st1 issue (get_gitea_repo cfg project)
          (pyReplace issue.description ("\r\n".data) ("\n".data)) tbl)

theorem runIssues_phase1 (w : World) (cfg : Config) :
    ∀ (issues : List Issue) (st : St), TraceApp phase1Ev st (runIssues w cfg st issues).1 := by
  intro issues
  induction issues with
  | nil => intro st; exact traceApp_self _ _
  | cons issue rest ih =>
    intro st
    simp only [runIssues]
    rcases hci : create_issue w cfg st issue with ⟨st', e?⟩
    have h1 : TraceApp phase1Ev st st' := by
      have := create_issue_phase1 w cfg st issue
      rw [hci] at this
      exact this
    cases e? with
    | none => exact traceApp_trans _ h1 (ih st')
    | some e => exact h1

theorem rewriteDeferred_rw (st : St) (c : Deferred) :
    TraceApp isRw st (rewriteDeferred st c) :=
  traceApp_emit _ st _ rfl

theorem update_commentsGo_rw : ∀ (l : List Deferred) (st : St),
    TraceApp isRw st (update_commentsGo st l)
  | [], _ => traceApp_self _ _
  | c :: rest, st =>
    traceApp_trans _ (rewriteDeferred_rw st c) (update_commentsGo_rw rest _)

theorem update_comments_rw (st : St) : TraceApp isRw st (update_comments st) :=
  update_commentsGo_rw st.deferred st

/-- In a trace `A ++ B` where `A` has no rewrite events and `B` has only
rewrite events, everything after any rewrite event is a rewrite event. -/
theorem after_rw_only_rw :
    ∀ (A : List Event) (B l1 l2 : List Event) (e : Event),
      (∀ x ∈ A, isRw x = false) → (∀ x ∈ B, isRw x = true) →
      A ++ B = l1 ++ e :: l2 → isRw e = true → ∀ x ∈ l2, isRw x = true := by
  intro A
  induction A with
  | nil =>
    intro B l1 l2 e _ hB heq _ x hx
    apply hB
    rw [List.nil_append] at heq
    rw [heq]
    exact List.mem_append_right l1 (List.mem_cons_of_mem e hx)
  | cons a A' ih =>
    intro B l1 l2 e hA hB heq he x hx
    cases l1 with
    | nil =>
      rw [List.nil_append, List.cons_append] at heq
      injection heq with h1 h2
      rw [h1] at hA
      have hfa := hA e (List.mem_cons_self e A')
      rw [hfa] at he
      cases he
    | cons y l1' =>
      rw [List.cons_append, List.cons_append] at heq
      injection heq with h1 h2
      exact ih B l1' l2 e (fun z hz => hA z (List.mem_cons_of_mem a hz)) hB h2 he x hx

/-- A trace with exactly one persist event decomposes uniquely around it. -/
theorem unique_persist_split :
    ∀ (A : List Event) (B l1 l2 : List Event) (p q : List (Str × Nat)),
      (∀ x ∈ A, isPersistEv x = false) → (∀ x ∈ B, isPersistEv x = false) →
      A ++ Event.persist p :: B = l1 ++ Event.persist q :: l2 →
      l1 = A ∧ q = p ∧ l2 = B := by
  intro A
  induction A with
  | nil =>
    intro B l1 l2 p q hA hB heq
    cases l1 with
    | nil =>
      rw [List.nil_append, List.nil_append] at heq
      injection heq with h1 h2
      injection h1 with hpq
      exact ⟨rfl, hpq.symm, h2.symm⟩
    | cons y l1' =>
      rw [List.nil_append, List.cons_append] at heq
      injection heq with h1 h2
      exfalso
      have hm : Event.persist q ∈ B := by
        rw [h2]
        exact List.mem_append_right l1' (List.mem_cons_self _ _)
      have := hB _ hm
      simp [isPersistEv] at this
  | cons a A' ih =>
    intro B l1 l2 p q hA hB heq
    cases l1 with
    | nil =>
      rw [List.nil_append, List.cons_append] at heq
      injection heq with h1 h2
      exfalso
      have := hA a (List.mem_cons_self a A')
      rw [h1] at this
      simp [isPersistEv] at this
    | cons y l1' =>
      rw [List.cons_append, List.cons_append] at heq
      injection heq with h1 h2
      obtain ⟨e1, e2, e3⟩ :=
        ih B l1' l2 p q (fun z hz => hA z (List.mem_cons_of_mem a hz)) hB h2
      refine ⟨?_, e2, e3⟩
      rw [e1, ← h1]

/-! ## C1 — the global two-phase barrier -/

/-- Claim C1: in every run's trace, once any phase-2 rewrite (`editBody`) has
been executed, every later event is also a rewrite — so no creation,
identifier record or comment posting of phase 1 (and no persistence) follows
any rewrite: `update_comments` only starts after `process_issues`' loop has
finished every issue, and hence after every `record` has returned. -/
theorem c1_phase_barrier (w : World) (cfg : Config) (issues : List Issue)
    (l1 l2 : List Event) (e : Event)
    (h : (process_issues w cfg issues).1.trace = l1 ++ e :: l2)
    (he : isRw e = true) :
    ∀ x ∈ l2, isRw x = true := by
  rcases hrun : runIssues w cfg St.init issues with ⟨st1, err⟩
  have hph := runIssues_phase1 w cfg issues St.init
  rw [hrun] at hph
  obtain ⟨n1, hn1, hp1⟩ := hph
  have hn1' : st1.trace = n1 := by simpa [St.init] using hn1
  have hAprop : ∀ x ∈ n1 ++ [Event.persist (persistEntries st1.registry)], isRw x = false := by
    intro x hx
    rcases List.mem_append.1 hx with hx | hx
    · exact phase1Ev_not_rw x (hp1 x hx)
    · simp only [List.mem_singleton] at hx
      subst hx
      rfl
  cases err with
  | none =>
    obtain ⟨n2, hn2, hp2⟩ := update_comments_rw (persistSt st1)
    have htr : (process_issues w cfg issues).1.trace
        = (n1 ++ [Event.persist (persistEntries st1.registry)]) ++ n2 := by
      simp only [process_issues, hrun]
      rw [hn2]
      rw [show (persistSt st1).trace
          = st1.trace ++ [Event.persist (persistEntries st1.registry)] from rfl]
      rw [hn1']
    rw [htr] at h
    exact after_rw_only_rw _ n2 l1 l2 e hAprop hp2 h he
  | some e' =>
    have htr : (process_issues w cfg issues).1.trace
        = (n1 ++ [Event.persist (persistEntries st1.registry)]) ++ [] := by
      simp only [process_issues, hrun]
      rw [show (persistSt st1).trace
          = st1.trace ++ [Event.persist (persistEntries st1.registry)] from rfl]
      rw [hn1']
      simp
    rw [htr] at h
    exact after_rw_only_rw _ [] l1 l2 e hAprop (by simp) h he

/-- Witness for C1 on a concrete two-issue run whose descriptions both
reference issue 4: the event following the first rewrite is a rewrite. -/
theorem c1_phase_barrier_witness :
    isRw (Event.editBody ("org/proj".data) 105 none ("#104 (redmine id: 4)".data)) = true :=
  c1_phase_barrier worldX cfgX [mkIssue 4 ("#4".data), mkIssue 5 ("#4".data)]
    [Event.fetchLabels ("org/proj".data),
     Event.createCall ("org/proj".data) 4 false false [1, 2],
     Event.record 4 104,
     Event.createCall ("org/proj".data) 5 false false [1, 2],
     Event.record 5 105,
     Event.persist [("4".data, 104), ("5".data, 105)]]
    [Event.editBody ("org/proj".data) 105 none ("#104 (redmine id: 4)".data)]
    (Event.editBody ("org/proj".data) 104 none ("#104 (redmine id: 4)".data))
    (by decide) rfl
    (Event.editBody ("org/proj".data) 105 none ("#104 (redmine id: 4)".data))
    (List.mem_cons_self _ _)

/-! ## C4 — registry persistence -/

/-- Claim C4 (counterexample): in a two-issue run the registry is written out
exactly once, by the `finally` block AFTER the whole loop — the `take 4`
prefix, which ends with the creation call of the second issue, contains no
persist event, so the mapping recorded for issue 1 was NOT persisted before
the next issue was processed. -/
theorem c4_no_per_record_persist :
    (process_issues worldX cfgX [mkIssue 1 [], mkIssue 2 []]).1.trace =
      [Event.fetchLabels ("org/proj".data),
       Event.createCall ("org/proj".data) 1 false false [1, 2],
       Event.record 1 101,
       Event.createCall ("org/proj".data) 2 false false [1, 2],
       Event.record 2 102,
       Event.persist [("1".data, 101), ("2".data, 102)]] ∧
    ((process_issues worldX cfgX [mkIssue 1 [], mkIssue 2 []]).1.trace.take 4).filter
      isPersistEv = [] := by
  refine ⟨by decide, by decide⟩

/-- Claim C4 (amended): the registry is persisted exactly once per run, by the
`finally` block of `process_issues` — after the whole phase-1 loop (so after
every record of the run, not after each one) and before any phase-2 rewrite;
the persisted form is deterministic and key-sorted: `sort_keys=True` sorts
the items numerically by their integer keys before the encoder stringifies
them.  A crash that bypasses the interpreter's `finally` handling therefore
loses every mapping of the run, not just the in-flight record. -/
theorem c4_persist_once_sorted (w : World) (cfg : Config) (issues : List Issue)
    (l1 l2 : List Event) (p : List (Str × Nat))
    (h : (process_issues w cfg issues).1.trace = l1 ++ Event.persist p :: l2) :
    (∀ x ∈ l1, isRw x = false ∧ isPersistEv x = false) ∧
    (∀ x ∈ l2, isRecordEv x = false ∧ isPersistEv x = false) ∧
    pairwiseLe persistKeyLe p = true := by
  rcases hrun : runIssues w cfg St.init issues with ⟨st1, err⟩
  have hph := runIssues_phase1 w cfg issues St.init
  rw [hrun] at hph
  obtain ⟨n1, hn1, hp1⟩ := hph
  have hn1' : st1.trace = n1 := by simpa [St.init] using hn1
  have hA : ∀ x ∈ n1, isPersistEv x = false := fun x hx => phase1Ev_not_persist x (hp1 x hx)
  have hsorted : pairwiseLe persistKeyLe (persistEntries st1.registry) = true :=
    persistEntries_sorted st1.registry
  cases err with
  | none =>
    obtain ⟨n2, hn2, hp2⟩ := update_comments_rw (persistSt st1)
    have htr : (process_issues w cfg issues).1.trace
        = n1 ++ Event.persist (persistEntries st1.registry) :: n2 := by
      simp only [process_issues, hrun]
      rw [hn2]
      rw [show (persistSt st1).trace
          = st1.trace ++ [Event.persist (persistEntries st1.registry)] from rfl]
      rw [hn1']
      simp
    rw [htr] at h
    obtain ⟨e1, e2, e3⟩ := unique_persist_split n1 n2 l1 l2 (persistEntries st1.registry) p
      hA (fun x hx => isRw_not_persist x (hp2 x hx)) h
    subst e1
    subst e3
    subst e2
    exact ⟨fun x hx => ⟨phase1Ev_not_rw x (hp1 x hx), phase1Ev_not_persist x (hp1 x hx)⟩,
           fun x hx => ⟨isRw_not_record x (hp2 x hx), isRw_not_persist x (hp2 x hx)⟩,
           hsorted⟩
  | some e' =>
    have htr : (process_issues w cfg issues).1.trace
        = n1 ++ Event.persist (persistEntries st1.registry) :: [] := by
      simp only [process_issues, hrun]
      rw [show (persistSt st1).trace
          = st1.trace ++ [Event.persist (persistEntries st1.registry)] from rfl]
      rw [hn1']
    rw [htr] at h
    obtain ⟨e1, e2, e3⟩ := unique_persist_split n1 [] l1 l2 (persistEntries st1.registry) p
      hA (by simp) h
    subst e1
    subst e3
    subst e2
    exact ⟨fun x hx => ⟨phase1Ev_not_rw x (hp1 x hx), phase1Ev_not_persist x (hp1 x hx)⟩,
           by simp, hsorted⟩

/-- Witness for C4's amended theorem on a concrete one-issue run. -/
theorem c4_persist_once_sorted_witness :
    (∀ x ∈ [Event.fetchLabels ("org/proj".data),
            Event.createCall ("org/proj".data) 3 false false [1, 2],
            Event.record 3 103],
      isRw x = false ∧ isPersistEv x = false) ∧
    (∀ x ∈ ([] : List Event), isRecordEv x = false ∧ isPersistEv x = false) ∧
    pairwiseLe persistKeyLe [("3".data, 103)] = true :=
  c4_persist_once_sorted worldX cfgX [mkIssue 3 []]
    [Event.fetchLabels ("org/proj".data),
     Event.createCall ("org/proj".data) 3 false false [1, 2],
     Event.record 3 103]
    [] [("3".data, 103)] (by decide)

/-! ## C8 — private issues are skipped -/

/-- A private issue (whose description even contains a reference token). -/
def privIssue : Issue :=
  ⟨9, "s".data, 1, "#3 secret".data, "New".data, "Bug".data, "Normal".data, true, 0, "t".data,
   none, none, "Alice A".data, 7, []⟩

/-- Claim C8: processing a private issue leaves the Identifier Registry and
the deferred-reference list unchanged and performs no creation call, no
record, no comment post, no label assignment and no edit against the target —
the only possible external action is the label GET of line 308, which runs
before the private check and touches no issue. -/
theorem c8_private_skipped (w : World) (cfg : Config) (st : St) (issue : Issue)
    (h : issue.is_private = true) :
    (create_issue w cfg st issue).1.registry = st.registry ∧
    (create_issue w cfg st issue).1.deferred = st.deferred ∧
    ∃ new, (create_issue w cfg st issue).1.trace = st.trace ++ new ∧
      ∀ x ∈ new, isCreateEv x = false ∧ isRecordEv x = false ∧ isPostEv x = false ∧
        isAddLabelsEv x = false ∧ isRw x = false := by
  unfold create_issue
  cases hp : lookupA cfg.projects issue.projectId with
  | none =>
    refine ⟨?_, ?_, [], ?_, ?_⟩
    · simp only [hp]
    · simp only [hp]
    · simp only [hp, List.append_nil]
    · intro x hx
      exact (List.not_mem_nil x hx).elim
  | some project =>
    simp only [hp]
    rcases hgl : get_labels w st (get_gitea_repo cfg project) with ⟨st1, tbl⟩
    have hs := get_labels_state w st (get_gitea_repo cfg project)
    rw [hgl] at hs
    obtain ⟨hr, hd, htr⟩ := hs
    rw [if_pos h]
    refine ⟨hr, hd, ?_⟩
    rcases htr with htr | htr
    · refine ⟨[], by rw [List.append_nil]; exact htr, ?_⟩
      intro x hx
      exact (List.not_mem_nil x hx).elim
    · exact ⟨[.fetchLabels (get_gitea_repo cfg project)], htr,
        by simp [isCreateEv, isRecordEv, isPostEv, isAddLabelsEv, isRw]⟩

/-- Witness for C8 at the concrete private issue under `worldX`. -/
theorem c8_private_skipped_witness :
    (create_issue worldX cfgX St.init privIssue).1.registry = St.init.registry ∧
    (create_issue worldX cfgX St.init privIssue).1.deferred = St.init.deferred ∧
    ∃ new, (create_issue worldX cfgX St.init privIssue).1.trace = St.init.trace ++ new ∧
      ∀ x ∈ new, isCreateEv x = false ∧ isRecordEv x = false ∧ isPostEv x = false ∧
        isAddLabelsEv x = false ∧ isRw x = false :=
  c8_private_skipped worldX cfgX St.init privIssue rfl

end R2G
